import Mathlib

/-!
Verification of the typed-AST casting layer of gleamalyzer
(crates/syntax/src/ast.rs): the kind taxonomy, the single-kind node
wrappers generated by the asts! macro, the sum-type wrappers generated by
the enums! macro, and the accessor rules of ast_impl!.  Machine integers
play no role; the tree is embedded structurally.
-/

set_option maxHeartbeats 1000000

/-- Modelled from the spec: the kind taxonomy (the crate enum
`crate::SyntaxKind`, declared outside the files given here).  Its
constructors cover every node kind named in the asts! block of ast.rs, the
token kinds INTEGER, FLOAT and STRING matched by Literal::kind, the kind
the T! macro assigns to the pub keyword, and a few further token kinds
(identifier, whitespace, punctuation, keyword) standing for the rest of
the taxonomy.  Only distinctness of the tags matters to this layer. -/
inductive SyntaxKind where
  | SOURCE_FILE
  | TARGET_GROUP
  | TARGET
  | MODULE_CONSTANT
  | IMPORT
  | IMPORT_MODULE
  | UNQUALIFIED_IMPORT
  | MODULE_NAME
  | NAME
  | PATH
  | LITERAL
  | TUPLE
  | LIST
  | FN_TYPE
  | VAR_TYPE
  | TUPLE_TYPE
  | CONSTRUCTOR_TYPE
  | PARAM
  | PARAM_LIST
  | INTEGER
  | FLOAT
  | STRING
  | PUB_KW
  | CONST_KW
  | IDENT
  | WHITESPACE
  | EQ_PUNCT
  | ERROR
deriving DecidableEq

/-- An untyped token of the rowan tree: a kind tag plus its literal text. -/
structure SyntaxToken where
  kind : SyntaxKind
  text : String
deriving DecidableEq

/-- An untyped node of the rowan tree: its kind tag and its ordered children,
each a node or a token (rowan's `children_with_tokens` view). -/
inductive SyntaxNode : Type where
  | mk (kind : SyntaxKind) (children : List (SyntaxNode ⊕ SyntaxToken)) : SyntaxNode

/-- Kind tag of a node (rowan `SyntaxNode::kind`). -/
def SyntaxNode.kind : SyntaxNode → SyntaxKind
  | .mk k _ => k

/-- Ordered children of a node, nodes and tokens mixed
(rowan `SyntaxNode::children_with_tokens`). -/
def SyntaxNode.childElems : SyntaxNode → List (SyntaxNode ⊕ SyntaxToken)
  | .mk _ cs => cs

/-- Kind of a child element (rowan `NodeOrToken::kind`). -/
def elemKind : SyntaxNode ⊕ SyntaxToken → SyntaxKind
  | .inl n => n.kind
  | .inr t => t.kind

/-- rowan `NodeOrToken::into_token`. -/
def elemToken : SyntaxNode ⊕ SyntaxToken → Option SyntaxToken
  | .inl _ => none
  | .inr t => some t

/-- rowan `NodeOrToken::into_node`. -/
def elemNode : SyntaxNode ⊕ SyntaxToken → Option SyntaxNode
  | .inl n => some n
  | .inr _ => none

/-- Node children only, in document order (rowan `SyntaxNode::children`). -/
def childNodes (n : SyntaxNode) : List SyntaxNode :=
  n.childElems.filterMap elemNode

/-- Token children only, in document order (`children_with_tokens`
restricted to tokens, as by `filter_map(NodeOrToken::into_token)`). -/
def childTokens (n : SyntaxNode) : List SyntaxToken :=
  n.childElems.filterMap elemToken

/-- Abbreviation for the mixed child-element lists of the untyped tree. -/
abbrev ElemList : Type := List (SyntaxNode ⊕ SyntaxToken)

/-- Abbreviation for lists of untyped nodes. -/
abbrev NodeList : Type := List SyntaxNode

mutual

/-- Text covered by a child element. -/
def elemText : SyntaxNode ⊕ SyntaxToken → String
  | .inl n => nodeText n
  | .inr t => t.text

/-- Text of a node: the concatenation of the texts of its tokens in document
order (rowan's `Display` for a node, i.e. printing the node back to source). -/
def nodeText : SyntaxNode → String
  | .mk _ cs => elemsText cs

/-- Concatenated text of a list of child elements. -/
def elemsText : List (SyntaxNode ⊕ SyntaxToken) → String
  | [] => ""
  | e :: es => elemText e ++ elemsText es

end

/-- rowan `AstChildren<N>`: the lazy iterator over the typed children of a
node, materialised as the finite list it yields. -/
abbrev AstChildren (α : Type) : Type := List α

/-- rowan `ast::support::child::<N>`: `parent.children().find_map(N::cast)`,
the first node child that casts. -/
def astChild {α : Type} (cast : SyntaxNode → Option α) (n : SyntaxNode) : Option α :=
  (childNodes n).findSome? cast

/-- rowan `ast::support::children::<N>`: `parent.children().filter_map(N::cast)`
as yielded by the `AstChildren` iterator. -/
def astChildrenOf {α : Type} (cast : SyntaxNode → Option α) (n : SyntaxNode) :
    AstChildren α :=
  (childNodes n).filterMap cast

/-- The `$field[$k]` arm of ast_impl!: `children(&self.0).nth($k)`,
the k-th (0-based) node child that casts. -/
def astNthChild {α : Type} (cast : SyntaxNode → Option α) (n : SyntaxNode)
    (k : Nat) : Option α :=
  (astChildrenOf cast n)[k]?

/-- rowan `ast::support::token`: first token child of the given kind. -/
def astToken (k : SyntaxKind) (n : SyntaxNode) : Option SyntaxToken :=
  (childTokens n).find? (fun t => t.kind == k)

/-- The shared `can_cast` body of the asts! macro: `kind == SyntaxKind::$kind`. -/
def singleCanCast (K k : SyntaxKind) : Bool :=
  k == K

/-- The shared `cast` body of the asts! macro:
`if node.kind() == SyntaxKind::$kind { Some(Self(node)) } else { None }`. -/
def singleCast {α : Type} (K : SyntaxKind) (mk : SyntaxNode → α)
    (n : SyntaxNode) : Option α :=
  if n.kind == K then some (mk n) else none

namespace gleam

/-- LiteralKind of ast.rs. -/
inductive LiteralKind where
  | Int
  | Float
  | String
deriving DecidableEq

/-- Wrapper struct of `LIST = List` in the asts! block: `struct List(SyntaxNode)`. -/
structure List where
  node : SyntaxNode

/-- Wrapper struct of `LITERAL = Literal`. -/
structure Literal where
  node : SyntaxNode

/-- Wrapper struct of `IMPORT = Import`. -/
structure Import where
  node : SyntaxNode

/-- Wrapper struct of `IMPORT_MODULE = ImportModule`. -/
structure ImportModule where
  node : SyntaxNode

/-- Wrapper struct of `SOURCE_FILE = SourceFile`. -/
structure SourceFile where
  node : SyntaxNode

/-- Wrapper struct of `MODULE_NAME = ModuleName`. -/
structure ModuleName where
  node : SyntaxNode

/-- Wrapper struct of `MODULE_CONSTANT = ModuleConstant`. -/
structure ModuleConstant where
  node : SyntaxNode

/-- Wrapper struct of `NAME = Name`. -/
structure Name where
  node : SyntaxNode

/-- Wrapper struct of `PATH = Path`. -/
structure Path where
  node : SyntaxNode

/-- Wrapper struct of `UNQUALIFIED_IMPORT = UnqualifiedImport`. -/
structure UnqualifiedImport where
  node : SyntaxNode

/-- Wrapper struct of `PARAM = Param`. -/
structure Param where
  node : SyntaxNode

/-- Wrapper struct of `PARAM_LIST = ParamList`. -/
structure ParamList where
  node : SyntaxNode

/-- Wrapper struct of `TARGET = Target`. -/
structure Target where
  node : SyntaxNode

/-- Wrapper struct of `TARGET_GROUP = TargetGroup`. -/
structure TargetGroup where
  node : SyntaxNode

/-- Wrapper struct of `TUPLE = Tuple`. -/
structure Tuple where
  node : SyntaxNode

/-- Wrapper struct of `CONSTRUCTOR_TYPE = ConstructorType`. -/
structure ConstructorType where
  node : SyntaxNode

/-- Wrapper struct of `TUPLE_TYPE = TupleType`. -/
structure TupleType where
  node : SyntaxNode

/-- Wrapper struct of `FN_TYPE = FnType`. -/
structure FnType where
  node : SyntaxNode

/-- Wrapper struct of `VAR_TYPE = VarType`. -/
structure VarType where
  node : SyntaxNode

/-- NodeWrapper::KIND for List. -/
def List.KIND : SyntaxKind := .LIST

/-- NodeWrapper::KIND for Literal. -/
def Literal.KIND : SyntaxKind := .LITERAL

/-- NodeWrapper::KIND for Import. -/
def Import.KIND : SyntaxKind := .IMPORT

/-- NodeWrapper::KIND for ImportModule. -/
def ImportModule.KIND : SyntaxKind := .IMPORT_MODULE

/-- NodeWrapper::KIND for SourceFile. -/
def SourceFile.KIND : SyntaxKind := .SOURCE_FILE

/-- NodeWrapper::KIND for ModuleName. -/
def ModuleName.KIND : SyntaxKind := .MODULE_NAME

/-- NodeWrapper::KIND for ModuleConstant. -/
def ModuleConstant.KIND : SyntaxKind := .MODULE_CONSTANT

/-- NodeWrapper::KIND for Name. -/
def Name.KIND : SyntaxKind := .NAME

/-- NodeWrapper::KIND for Path. -/
def Path.KIND : SyntaxKind := .PATH

/-- NodeWrapper::KIND for UnqualifiedImport. -/
def UnqualifiedImport.KIND : SyntaxKind := .UNQUALIFIED_IMPORT

/-- NodeWrapper::KIND for Param. -/
def Param.KIND : SyntaxKind := .PARAM

/-- NodeWrapper::KIND for ParamList. -/
def ParamList.KIND : SyntaxKind := .PARAM_LIST

/-- NodeWrapper::KIND for Target. -/
def Target.KIND : SyntaxKind := .TARGET

/-- NodeWrapper::KIND for TargetGroup. -/
def TargetGroup.KIND : SyntaxKind := .TARGET_GROUP

/-- NodeWrapper::KIND for Tuple. -/
def Tuple.KIND : SyntaxKind := .TUPLE

/-- NodeWrapper::KIND for ConstructorType. -/
def ConstructorType.KIND : SyntaxKind := .CONSTRUCTOR_TYPE

/-- NodeWrapper::KIND for TupleType. -/
def TupleType.KIND : SyntaxKind := .TUPLE_TYPE

/-- NodeWrapper::KIND for FnType. -/
def FnType.KIND : SyntaxKind := .FN_TYPE

/-- NodeWrapper::KIND for VarType. -/
def VarType.KIND : SyntaxKind := .VAR_TYPE

/-- AstNode::can_cast for List (asts! macro). -/
def List.can_cast (k : SyntaxKind) : Bool := singleCanCast List.KIND k

/-- AstNode::cast for List (asts! macro). -/
def List.cast (n : SyntaxNode) : Option gleam.List := singleCast List.KIND List.mk n

/-- AstNode::can_cast for Literal. -/
def Literal.can_cast (k : SyntaxKind) : Bool := singleCanCast Literal.KIND k

/-- AstNode::cast for Literal. -/
def Literal.cast (n : SyntaxNode) : Option Literal := singleCast Literal.KIND Literal.mk n

/-- AstNode::can_cast for Import. -/
def Import.can_cast (k : SyntaxKind) : Bool := singleCanCast Import.KIND k

/-- AstNode::cast for Import. -/
def Import.cast (n : SyntaxNode) : Option Import := singleCast Import.KIND Import.mk n

/-- AstNode::can_cast for ImportModule. -/
def ImportModule.can_cast (k : SyntaxKind) : Bool := singleCanCast ImportModule.KIND k

/-- AstNode::cast for ImportModule. -/
def ImportModule.cast (n : SyntaxNode) : Option ImportModule :=
  singleCast ImportModule.KIND ImportModule.mk n

/-- AstNode::can_cast for SourceFile. -/
def SourceFile.can_cast (k : SyntaxKind) : Bool := singleCanCast SourceFile.KIND k

/-- AstNode::cast for SourceFile. -/
def SourceFile.cast (n : SyntaxNode) : Option SourceFile :=
  singleCast SourceFile.KIND SourceFile.mk n

/-- AstNode::can_cast for ModuleName. -/
def ModuleName.can_cast (k : SyntaxKind) : Bool := singleCanCast ModuleName.KIND k

/-- AstNode::cast for ModuleName. -/
def ModuleName.cast (n : SyntaxNode) : Option ModuleName :=
  singleCast ModuleName.KIND ModuleName.mk n

/-- AstNode::can_cast for ModuleConstant. -/
def ModuleConstant.can_cast (k : SyntaxKind) : Bool := singleCanCast ModuleConstant.KIND k

/-- AstNode::cast for ModuleConstant. -/
def ModuleConstant.cast (n : SyntaxNode) : Option ModuleConstant :=
  singleCast ModuleConstant.KIND ModuleConstant.mk n

/-- AstNode::can_cast for Name. -/
def Name.can_cast (k : SyntaxKind) : Bool := singleCanCast Name.KIND k

/-- AstNode::cast for Name. -/
def Name.cast (n : SyntaxNode) : Option Name := singleCast Name.KIND Name.mk n

/-- AstNode::can_cast for Path. -/
def Path.can_cast (k : SyntaxKind) : Bool := singleCanCast Path.KIND k

/-- AstNode::cast for Path. -/
def Path.cast (n : SyntaxNode) : Option Path := singleCast Path.KIND Path.mk n

/-- AstNode::can_cast for UnqualifiedImport. -/
def UnqualifiedImport.can_cast (k : SyntaxKind) : Bool :=
  singleCanCast UnqualifiedImport.KIND k

/-- AstNode::cast for UnqualifiedImport. -/
def UnqualifiedImport.cast (n : SyntaxNode) : Option UnqualifiedImport :=
  singleCast UnqualifiedImport.KIND UnqualifiedImport.mk n

/-- AstNode::can_cast for Param. -/
def Param.can_cast (k : SyntaxKind) : Bool := singleCanCast Param.KIND k

/-- AstNode::cast for Param. -/
def Param.cast (n : SyntaxNode) : Option Param := singleCast Param.KIND Param.mk n

/-- AstNode::can_cast for ParamList. -/
def ParamList.can_cast (k : SyntaxKind) : Bool := singleCanCast ParamList.KIND k

/-- AstNode::cast for ParamList. -/
def ParamList.cast (n : SyntaxNode) : Option ParamList :=
  singleCast ParamList.KIND ParamList.mk n

/-- AstNode::can_cast for Target. -/
def Target.can_cast (k : SyntaxKind) : Bool := singleCanCast Target.KIND k

/-- AstNode::cast for Target. -/
def Target.cast (n : SyntaxNode) : Option Target := singleCast Target.KIND Target.mk n

/-- AstNode::can_cast for TargetGroup. -/
def TargetGroup.can_cast (k : SyntaxKind) : Bool := singleCanCast TargetGroup.KIND k

/-- AstNode::cast for TargetGroup. -/
def TargetGroup.cast (n : SyntaxNode) : Option TargetGroup :=
  singleCast TargetGroup.KIND TargetGroup.mk n

/-- AstNode::can_cast for Tuple. -/
def Tuple.can_cast (k : SyntaxKind) : Bool := singleCanCast Tuple.KIND k

/-- AstNode::cast for Tuple. -/
def Tuple.cast (n : SyntaxNode) : Option Tuple := singleCast Tuple.KIND Tuple.mk n

/-- AstNode::can_cast for ConstructorType. -/
def ConstructorType.can_cast (k : SyntaxKind) : Bool := singleCanCast ConstructorType.KIND k

/-- AstNode::cast for ConstructorType. -/
def ConstructorType.cast (n : SyntaxNode) : Option ConstructorType :=
  singleCast ConstructorType.KIND ConstructorType.mk n

/-- AstNode::can_cast for TupleType. -/
def TupleType.can_cast (k : SyntaxKind) : Bool := singleCanCast TupleType.KIND k

/-- AstNode::cast for TupleType. -/
def TupleType.cast (n : SyntaxNode) : Option TupleType :=
  singleCast TupleType.KIND TupleType.mk n

/-- AstNode::can_cast for FnType. -/
def FnType.can_cast (k : SyntaxKind) : Bool := singleCanCast FnType.KIND k

/-- AstNode::cast for FnType. -/
def FnType.cast (n : SyntaxNode) : Option FnType := singleCast FnType.KIND FnType.mk n

/-- AstNode::can_cast for VarType. -/
def VarType.can_cast (k : SyntaxKind) : Bool := singleCanCast VarType.KIND k

/-- AstNode::cast for VarType. -/
def VarType.cast (n : SyntaxNode) : Option VarType := singleCast VarType.KIND VarType.mk n

/-- Sum-type wrapper `Statement` of the enums! block. -/
inductive Statement where
  | ModuleConstant (v : ModuleConstant)
  | Import (v : Import)

/-- Sum-type wrapper `ConstantValue` of the enums! block. -/
inductive ConstantValue where
  | Literal (v : Literal)
  | Tuple (v : Tuple)
  | List (v : gleam.List)

/-- Sum-type wrapper of the enums! block for the type-annotation slot. -/
inductive TypeAnnotation where
  | FnType (v : FnType)
  | VarType (v : VarType)
  | TupleType (v : TupleType)
  | ConstructorType (v : ConstructorType)

/-- AstNode::can_cast of the enums! macro for Statement:
`matches!(kind, ModuleConstant::KIND | Import::KIND)`. -/
def Statement.can_cast (k : SyntaxKind) : Bool :=
  k == ModuleConstant.KIND || k == Import.KIND

/-- AstNode::cast of the enums! macro for Statement: match on `node.kind()`,
one arm per variant, wrapping the node in that variant's struct. -/
def Statement.cast (n : SyntaxNode) : Option Statement :=
  if n.kind == ModuleConstant.KIND then some (.ModuleConstant ⟨n⟩)
  else if n.kind == Import.KIND then some (.Import ⟨n⟩)
  else none

/-- AstNode::syntax of the enums! macro for Statement. -/
def Statement.node : Statement → SyntaxNode
  | .ModuleConstant e => e.node
  | .Import e => e.node

/-- AstNode::can_cast of the enums! macro for ConstantValue. -/
def ConstantValue.can_cast (k : SyntaxKind) : Bool :=
  k == Literal.KIND || k == Tuple.KIND || k == List.KIND

/-- AstNode::cast of the enums! macro for ConstantValue. -/
def ConstantValue.cast (n : SyntaxNode) : Option ConstantValue :=
  if n.kind == Literal.KIND then some (.Literal ⟨n⟩)
  else if n.kind == Tuple.KIND then some (.Tuple ⟨n⟩)
  else if n.kind == List.KIND then some (.List ⟨n⟩)
  else none

/-- AstNode::syntax of the enums! macro for ConstantValue. -/
def ConstantValue.node : ConstantValue → SyntaxNode
  | .Literal e => e.node
  | .Tuple e => e.node
  | .List e => e.node

/-- AstNode::can_cast of the enums! macro for the type-annotation sum. -/
def TypeAnnotation.can_cast (k : SyntaxKind) : Bool :=
  k == FnType.KIND || k == VarType.KIND || k == TupleType.KIND || k == ConstructorType.KIND

/-- AstNode::cast of the enums! macro for the type-annotation sum. -/
def TypeAnnotation.cast (n : SyntaxNode) : Option TypeAnnotation :=
  if n.kind == FnType.KIND then some (.FnType ⟨n⟩)
  else if n.kind == VarType.KIND then some (.VarType ⟨n⟩)
  else if n.kind == TupleType.KIND then some (.TupleType ⟨n⟩)
  else if n.kind == ConstructorType.KIND then some (.ConstructorType ⟨n⟩)
  else none

/-- AstNode::syntax of the enums! macro for the type-annotation sum. -/
def TypeAnnotation.node : TypeAnnotation → SyntaxNode
  | .FnType e => e.node
  | .VarType e => e.node
  | .TupleType e => e.node
  | .ConstructorType e => e.node

/-- Reference procedure following the spec's words for the sum-type cast:
tries each variant's own single-kind cast in declaration order; the first
success determines the chosen variant and wraps the result; if no variant
matches, returns absent. -/
def Statement.castSpec (n : SyntaxNode) : Option Statement :=
  match ModuleConstant.cast n with
  | some v => some (.ModuleConstant v)
  | none =>
    match Import.cast n with
    | some v => some (.Import v)
    | none => none

/-- Reference procedure following the spec's words for ConstantValue::cast
(first variant cast to succeed, in declaration order). -/
def ConstantValue.castSpec (n : SyntaxNode) : Option ConstantValue :=
  match Literal.cast n with
  | some v => some (.Literal v)
  | none =>
    match Tuple.cast n with
    | some v => some (.Tuple v)
    | none =>
      match List.cast n with
      | some v => some (.List v)
      | none => none

/-- Reference procedure following the spec's words for the type-annotation
sum's cast (first variant cast to succeed, in declaration order). -/
def TypeAnnotation.castSpec (n : SyntaxNode) : Option TypeAnnotation :=
  match FnType.cast n with
  | some v => some (.FnType v)
  | none =>
    match VarType.cast n with
    | some v => some (.VarType v)
    | none =>
      match TupleType.cast n with
      | some v => some (.TupleType v)
      | none =>
        match ConstructorType.cast n with
        | some v => some (.ConstructorType v)
        | none => none

namespace List

/-- `elements: [ConstantValue]` of List. -/
def elements (w : gleam.List) : AstChildren ConstantValue :=
  astChildrenOf ConstantValue.cast w.node

end List

namespace Literal

/-- Handwritten Literal::token of ast.rs:
`self.0.children_with_tokens().find_map(NodeOrToken::into_token)`. -/
def token (w : Literal) : Option SyntaxToken :=
  w.node.childElems.findSome? elemToken

/-- Handwritten Literal::kind of ast.rs: maps the token's kind to
LiteralKind, absent when there is no token or no mapping. -/
def kind (w : Literal) : Option LiteralKind :=
  match Literal.token w with
  | none => none
  | some t =>
    match t.kind with
    | .INTEGER => some .Int
    | .FLOAT => some .Float
    | .STRING => some .String
    | _ => none

end Literal

namespace Import

/-- `module: ImportModule` of Import. -/
def module (w : Import) : Option ImportModule :=
  astChild ImportModule.cast w.node

end Import

namespace ImportModule

/-- `module_path: [Path]` of ImportModule. -/
def module_path (w : ImportModule) : AstChildren Path :=
  astChildrenOf Path.cast w.node

/-- `as_name: Name` of ImportModule. -/
def as_name (w : ImportModule) : Option Name :=
  astChild Name.cast w.node

/-- `unqualified: [UnqualifiedImport]` of ImportModule. -/
def unqualified (w : ImportModule) : AstChildren UnqualifiedImport :=
  astChildrenOf UnqualifiedImport.cast w.node

end ImportModule

namespace SourceFile

/-- `statements: [TargetGroup]` of SourceFile. -/
def statements (w : SourceFile) : AstChildren TargetGroup :=
  astChildrenOf TargetGroup.cast w.node

end SourceFile

namespace ModuleName

/-- Handwritten ModuleName::token of ast.rs. -/
def token (w : ModuleName) : Option SyntaxToken :=
  w.node.childElems.findSome? elemToken

end ModuleName

namespace ModuleConstant

/-- `name: Name` of ModuleConstant. -/
def name (w : ModuleConstant) : Option Name :=
  astChild Name.cast w.node

/-- `value: ConstantValue` of ModuleConstant. -/
def value (w : ModuleConstant) : Option ConstantValue :=
  astChild ConstantValue.cast w.node

/-- The type-annotation field of ModuleConstant. -/
def annotation (w : ModuleConstant) : Option TypeAnnotation :=
  astChild TypeAnnotation.cast w.node

/-- Handwritten ModuleConstant::is_public of ast.rs:
`self.syntax().children_with_tokens().find(|it| it.kind() == T!["pub"]).is_some()`. -/
def is_public (w : ModuleConstant) : Bool :=
  (w.node.childElems.find? (fun e => elemKind e == .PUB_KW)).isSome

end ModuleConstant

namespace Name

/-- Handwritten Name::token of ast.rs. -/
def token (w : Name) : Option SyntaxToken :=
  w.node.childElems.findSome? elemToken

end Name

namespace Path

/-- Handwritten Path::token of ast.rs. -/
def token (w : Path) : Option SyntaxToken :=
  w.node.childElems.findSome? elemToken

end Path

namespace UnqualifiedImport

/-- `name: Name` of UnqualifiedImport. -/
def name (w : UnqualifiedImport) : Option Name :=
  astChild Name.cast w.node

/-- `as_name[1]: Name` of UnqualifiedImport: `children(&self.0).nth(1)`. -/
def as_name (w : UnqualifiedImport) : Option Name :=
  astNthChild Name.cast w.node 1

end UnqualifiedImport

namespace Param

/-- The type-annotation field `ty` of Param. -/
def ty (w : Param) : Option TypeAnnotation :=
  astChild TypeAnnotation.cast w.node

end Param

namespace ParamList

/-- `params: [Param]` of ParamList. -/
def params (w : ParamList) : AstChildren Param :=
  astChildrenOf Param.cast w.node

end ParamList

namespace Target

/-- `name: Name` of Target. -/
def name (w : Target) : Option Name :=
  astChild Name.cast w.node

end Target

namespace TargetGroup

/-- `target: Target` of TargetGroup. -/
def target (w : TargetGroup) : Option Target :=
  astChild Target.cast w.node

/-- `statements: [Statement]` of TargetGroup. -/
def statements (w : TargetGroup) : AstChildren Statement :=
  astChildrenOf Statement.cast w.node

end TargetGroup

namespace Tuple

/-- `elements: [ConstantValue]` of Tuple. -/
def elements (w : Tuple) : AstChildren ConstantValue :=
  astChildrenOf ConstantValue.cast w.node

end Tuple

namespace ConstructorType

/-- `constructor: Name` of ConstructorType. -/
def constructor (w : ConstructorType) : Option Name :=
  astChild Name.cast w.node

/-- `module: ModuleName` of ConstructorType. -/
def module (w : ConstructorType) : Option ModuleName :=
  astChild ModuleName.cast w.node

end ConstructorType

namespace TupleType

/-- The all-children type-annotation field `field_types` of TupleType. -/
def field_types (w : TupleType) : AstChildren TypeAnnotation :=
  astChildrenOf TypeAnnotation.cast w.node

end TupleType

namespace FnType

/-- `param_list: ParamList` of FnType. -/
def param_list (w : FnType) : Option ParamList :=
  astChild ParamList.cast w.node

/-- The type-annotation field `return_` of FnType. -/
def return_ (w : FnType) : Option TypeAnnotation :=
  astChild TypeAnnotation.cast w.node

end FnType

namespace VarType

/-- `name: Name` of VarType. -/
def name (w : VarType) : Option Name :=
  astChild Name.cast w.node

end VarType

end gleam

/-- Modelled from the spec: the external error-tolerant parser (the crate's
parser module, outside the files given here) as its contract: for every
input it returns a root untyped node of the well-known root kind
SOURCE_FILE, and the produced tree is lossless, i.e. printing the root
node back to text reproduces the input exactly. -/
def ParserContract (parse : String → SyntaxNode) : Prop :=
  ∀ src : String,
    (parse src).kind = SyntaxKind.SOURCE_FILE ∧ nodeText (parse src) = src

/-- Modelled from the spec: one concrete parser satisfying ParserContract,
used only to instantiate theorems at a concrete input. -/
def parseModel (src : String) : SyntaxNode :=
  SyntaxNode.mk .SOURCE_FILE [Sum.inr ⟨.IDENT, src⟩]

/-- A concrete source text used to instantiate the round-trip theorem. -/
def srcEx : String :=
  "const a = 1"

/-- A MODULE_CONSTANT node with a node child whose kind is the pub-keyword
kind and with no token children at all; such a node is never produced by
the parser but is a legal untyped tree. -/
def mcCex : SyntaxNode :=
  SyntaxNode.mk .MODULE_CONSTANT [Sum.inl (SyntaxNode.mk .PUB_KW [])]

/-- A MODULE_CONSTANT node as parsed from a public constant declaration:
a pub keyword token followed by the rest of the declaration. -/
def mcPub : SyntaxNode :=
  SyntaxNode.mk .MODULE_CONSTANT
    [Sum.inr ⟨.PUB_KW, "pub"⟩, Sum.inr ⟨.WHITESPACE, " "⟩,
     Sum.inr ⟨.CONST_KW, "const"⟩, Sum.inr ⟨.WHITESPACE, " "⟩,
     Sum.inl (SyntaxNode.mk .NAME [Sum.inr ⟨.IDENT, "a"⟩]),
     Sum.inr ⟨.EQ_PUNCT, "="⟩,
     Sum.inl (SyntaxNode.mk .LITERAL [Sum.inr ⟨.STRING, "123"⟩])]

/-- An UNQUALIFIED_IMPORT node with exactly one NAME child (no alias). -/
def uqOneName : SyntaxNode :=
  SyntaxNode.mk .UNQUALIFIED_IMPORT
    [Sum.inl (SyntaxNode.mk .NAME [Sum.inr ⟨.IDENT, "m"⟩])]

theorem singleCast_isSome {α : Type} (K : SyntaxKind) (mk : SyntaxNode → α)
    (n : SyntaxNode) :
    (singleCast K mk n).isSome = singleCanCast K n.kind := by
  by_cases h : n.kind == K <;> simp [singleCast, singleCanCast, h]

theorem singleCast_node {α : Type} (K : SyntaxKind) (mk : SyntaxNode → α)
    (nodeOf : α → SyntaxNode) (hmk : ∀ n, nodeOf (mk n) = n) :
    ∀ n w, singleCast K mk n = some w → nodeOf w = n := by
  intro n w h
  unfold singleCast at h
  split at h
  · injection h with h2
    rw [← h2, hmk]
  · cases h

theorem bind_recast {σ : Type} (cast : SyntaxNode → Option σ)
    (nodeOf : σ → SyntaxNode)
    (h : ∀ n s, cast n = some s → nodeOf s = n) (n : SyntaxNode) :
    (cast n).bind (fun s => cast (nodeOf s)) = cast n := by
  cases hc : cast n with
  | none => rfl
  | some s =>
    have hn := h n s hc
    show cast (nodeOf s) = some s
    rw [hn]
    exact hc

theorem getElem?_filterMap_eq {α β : Type} (f : α → Option β) :
    ∀ (l : List α) (i : Nat),
      (l.filterMap f)[i]? = ((l.filter (fun a => (f a).isSome))[i]?).bind f := by
  intro l
  induction l with
  | nil => intro i; simp
  | cons a t ih =>
    intro i
    cases hf : f a with
    | none => simpa [List.filterMap_cons, List.filter_cons, hf] using ih i
    | some b =>
      cases i with
      | zero => simp [List.filterMap_cons, List.filter_cons, hf]
      | succ j => simpa [List.filterMap_cons, List.filter_cons, hf] using ih j

theorem length_filterMap_eq {α β : Type} (f : α → Option β) :
    ∀ l : List α,
      (l.filterMap f).length = (l.filter (fun a => (f a).isSome)).length := by
  intro l
  induction l with
  | nil => rfl
  | cons a t ih => cases hf : f a <;> simp [List.filterMap_cons, List.filter_cons, hf, ih]

theorem findSome?_eq_getElem?_zero {α β : Type} (f : α → Option β) :
    ∀ l : List α, l.findSome? f = (l.filterMap f)[0]? := by
  intro l
  cases l with
  | nil => rfl
  | cons a t => cases hf : f a <;> simp [List.findSome?_cons, List.filterMap_cons, hf, findSome?_eq_getElem?_zero f t]

theorem map_filterMap_of {α : Type} (cast : SyntaxNode → Option α)
    (nodeOf : α → SyntaxNode) (canCast : SyntaxKind → Bool)
    (h1 : ∀ n w, cast n = some w → nodeOf w = n)
    (h2 : ∀ n, (cast n).isSome = canCast n.kind) :
    ∀ l : NodeList,
      (l.filterMap cast).map nodeOf = l.filter (fun c => canCast c.kind) := by
  intro l
  induction l with
  | nil => rfl
  | cons a t ih =>
    cases hf : cast a with
    | none =>
      have ha : canCast a.kind = false := by
        rw [← h2 a, hf]
        rfl
      simpa [List.filterMap_cons, List.filter_cons, hf, ha] using ih
    | some w =>
      have ha : canCast a.kind = true := by
        rw [← h2 a, hf]
        rfl
      simp [List.filterMap_cons, List.filter_cons, hf, ha, ih, h1 a w hf]

theorem getElem?_filterMap_map {α : Type} (cast : SyntaxNode → Option α)
    (nodeOf : α → SyntaxNode) (canCast : SyntaxKind → Bool)
    (h1 : ∀ n w, cast n = some w → nodeOf w = n)
    (h2 : ∀ n, (cast n).isSome = canCast n.kind) :
    ∀ (l : List SyntaxNode) (i : Nat),
      ((l.filterMap cast)[i]?).map nodeOf = (l.filter (fun c => canCast c.kind))[i]? := by
  intro l i
  rw [← List.getElem?_map, map_filterMap_of cast nodeOf canCast h1 h2 l]

theorem getElem?_filter_index {α : Type} (p : α → Bool) :
    ∀ (l : List α) (k : Nat) (b : α),
      (l.filter p)[k]? = some b → ∃ m : Nat, l[m]? = some b := by
  intro l
  induction l with
  | nil => intro k b h; simp at h
  | cons a t ih =>
    intro k b h
    by_cases hp : p a
    · rw [List.filter_cons_of_pos hp] at h
      cases k with
      | zero =>
        refine ⟨0, ?_⟩
        simpa using h
      | succ j =>
        obtain ⟨m, hm⟩ := ih j b (by simpa using h)
        exact ⟨m + 1, by simpa using hm⟩
    · rw [List.filter_cons_of_neg hp] at h
      obtain ⟨m, hm⟩ := ih k b h
      exact ⟨m + 1, by simpa using hm⟩

theorem filter_zero_one {α : Type} (p : α → Bool) :
    ∀ (l : List α) (a b : α),
      (l.filter p)[0]? = some a → (l.filter p)[1]? = some b →
      ∃ i j : Nat, i < j ∧ l[i]? = some a ∧ l[j]? = some b := by
  intro l
  induction l with
  | nil => intro a b h; simp at h
  | cons x t ih =>
    intro a b h0 h1
    by_cases hp : p x
    · rw [List.filter_cons_of_pos hp] at h0 h1
      have hax : a = x := by simpa using h0.symm
      obtain ⟨m, hm⟩ := getElem?_filter_index p t 0 b (by simpa using h1)
      refine ⟨0, m + 1, Nat.succ_pos m, ?_, ?_⟩
      · simpa using hax.symm
      · simpa using hm
    · rw [List.filter_cons_of_neg hp] at h0 h1
      obtain ⟨i, j, hij, ha, hb⟩ := ih a b h0 h1
      exact ⟨i + 1, j + 1, by omega, by simpa using ha, by simpa using hb⟩

theorem singleCast_isSome_iff {α : Type} (K : SyntaxKind) (mk : SyntaxNode → α)
    (n : SyntaxNode) :
    (singleCast K mk n).isSome ↔ n.kind = K := by
  rw [singleCast_isSome]
  simp [singleCanCast]

namespace gleam

theorem statement_cast_node :
    ∀ n s, Statement.cast n = some s → Statement.node s = n := by
  intro n s h
  unfold Statement.cast at h
  split at h
  · cases h
    rfl
  · split at h
    · cases h
      rfl
    · cases h

theorem constantValue_cast_node :
    ∀ n s, ConstantValue.cast n = some s → ConstantValue.node s = n := by
  intro n s h
  unfold ConstantValue.cast at h
  split at h
  · cases h
    rfl
  · split at h
    · cases h
      rfl
    · split at h
      · cases h
        rfl
      · cases h

theorem typeAnnotation_cast_node :
    ∀ n s, TypeAnnotation.cast n = some s → TypeAnnotation.node s = n := by
  intro n s h
  unfold TypeAnnotation.cast at h
  split at h
  · cases h
    rfl
  · split at h
    · cases h
      rfl
    · split at h
      · cases h
        rfl
      · split at h
        · cases h
          rfl
        · cases h

theorem statement_cast_isSome :
    ∀ n, (Statement.cast n).isSome = Statement.can_cast n.kind := by
  intro n
  obtain ⟨k, cs⟩ := n
  cases k <;> rfl

theorem constantValue_cast_isSome :
    ∀ n, (ConstantValue.cast n).isSome = ConstantValue.can_cast n.kind := by
  intro n
  obtain ⟨k, cs⟩ := n
  cases k <;> rfl

theorem typeAnnotation_cast_isSome :
    ∀ n, ( TypeAnnotation.cast n).isSome = TypeAnnotation.can_cast n.kind := by
  intro n
  obtain ⟨k, cs⟩ := n
  cases k <;> rfl

/-- C1: for every single-kind wrapper type of the asts! block and every
sum-type wrapper of the enums! block, and every untyped node n, cast n
returns some exactly when n's kind tag lies in the wrapper's declared kind
set; and the decision depends only on the kind tag: two nodes with the
same kind tag and arbitrary (different) children are accepted alike, so
cast never examines the children. -/
theorem c1_cast_soundness :
    (∀ n : SyntaxNode,
      ((gleam.List.cast n).isSome ↔ n.kind = List.KIND) ∧
      ((Literal.cast n).isSome ↔ n.kind = Literal.KIND) ∧
      ((Import.cast n).isSome ↔ n.kind = Import.KIND) ∧
      ((ImportModule.cast n).isSome ↔ n.kind = ImportModule.KIND) ∧
      ((SourceFile.cast n).isSome ↔ n.kind = SourceFile.KIND) ∧
      ((ModuleName.cast n).isSome ↔ n.kind = ModuleName.KIND) ∧
      ((ModuleConstant.cast n).isSome ↔ n.kind = ModuleConstant.KIND) ∧
      ((Name.cast n).isSome ↔ n.kind = Name.KIND) ∧
      ((Path.cast n).isSome ↔ n.kind = Path.KIND) ∧
      ((UnqualifiedImport.cast n).isSome ↔ n.kind = UnqualifiedImport.KIND) ∧
      ((Param.cast n).isSome ↔ n.kind = Param.KIND) ∧
      ((ParamList.cast n).isSome ↔ n.kind = ParamList.KIND) ∧
      ((Target.cast n).isSome ↔ n.kind = Target.KIND) ∧
      ((TargetGroup.cast n).isSome ↔ n.kind = TargetGroup.KIND) ∧
      ((Tuple.cast n).isSome ↔ n.kind = Tuple.KIND) ∧
      ((ConstructorType.cast n).isSome ↔ n.kind = ConstructorType.KIND) ∧
      ((TupleType.cast n).isSome ↔ n.kind = TupleType.KIND) ∧
      ((FnType.cast n).isSome ↔ n.kind = FnType.KIND) ∧
      ((VarType.cast n).isSome ↔ n.kind = VarType.KIND) ∧
      ((Statement.cast n).isSome ↔
        (n.kind = ModuleConstant.KIND ∨ n.kind = Import.KIND)) ∧
      ((ConstantValue.cast n).isSome ↔
        (n.kind = Literal.KIND ∨ n.kind = Tuple.KIND ∨ n.kind = List.KIND)) ∧
      (( TypeAnnotation.cast n).isSome ↔
        (n.kind = FnType.KIND ∨ n.kind = VarType.KIND ∨
         n.kind = TupleType.KIND ∨ n.kind = ConstructorType.KIND))) ∧
    (∀ (k : SyntaxKind) (cs cs' : ElemList),
      (∀ {α : Type} (K : SyntaxKind) (mk : SyntaxNode → α),
        (singleCast K mk (.mk k cs)).isSome = (singleCast K mk (.mk k cs')).isSome) ∧
      ((Statement.cast (.mk k cs)).isSome = (Statement.cast (.mk k cs')).isSome) ∧
      ((ConstantValue.cast (.mk k cs)).isSome = (ConstantValue.cast (.mk k cs')).isSome) ∧
      (( TypeAnnotation.cast (.mk k cs)).isSome = ( TypeAnnotation.cast (.mk k cs')).isSome)) := by
  constructor
  · intro n
    refine ⟨singleCast_isSome_iff _ _ _, singleCast_isSome_iff _ _ _,
      singleCast_isSome_iff _ _ _, singleCast_isSome_iff _ _ _,
      singleCast_isSome_iff _ _ _, singleCast_isSome_iff _ _ _,
      singleCast_isSome_iff _ _ _, singleCast_isSome_iff _ _ _,
      singleCast_isSome_iff _ _ _, singleCast_isSome_iff _ _ _,
      singleCast_isSome_iff _ _ _, singleCast_isSome_iff _ _ _,
      singleCast_isSome_iff _ _ _, singleCast_isSome_iff _ _ _,
      singleCast_isSome_iff _ _ _, singleCast_isSome_iff _ _ _,
      singleCast_isSome_iff _ _ _, singleCast_isSome_iff _ _ _,
      singleCast_isSome_iff _ _ _, ?_, ?_, ?_⟩
    · rw [statement_cast_isSome]
      obtain ⟨k, cs⟩ := n
      cases k <;> simp [Statement.can_cast, SyntaxNode.kind,
        ModuleConstant.KIND, Import.KIND]
    · rw [constantValue_cast_isSome]
      obtain ⟨k, cs⟩ := n
      cases k <;> simp [ConstantValue.can_cast, SyntaxNode.kind,
        Literal.KIND, Tuple.KIND, List.KIND]
    · rw [typeAnnotation_cast_isSome]
      obtain ⟨k, cs⟩ := n
      cases k <;> simp [ TypeAnnotation.can_cast, SyntaxNode.kind,
        FnType.KIND, VarType.KIND, TupleType.KIND, ConstructorType.KIND]
  · intro k cs cs'
    refine ⟨fun K mk => ?_, ?_, ?_, ?_⟩
    · simp only [singleCast_isSome]
      rfl
    · simp only [statement_cast_isSome]
      rfl
    · simp only [constantValue_cast_isSome]
      rfl
    · simp only [typeAnnotation_cast_isSome]
      rfl

/-- C2: for each sum-type wrapper (Statement, ConstantValue and the
type-annotation sum), the kind sets of its variants are pairwise disjoint:
no SyntaxKind is accepted by the single-kind can_cast of two different
variants of the same sum type, so a successful sum-type cast resolves to
exactly one variant. -/
theorem c2_variant_disjointness :
    ∀ k : SyntaxKind,
      (¬(ModuleConstant.can_cast k = true ∧ Import.can_cast k = true)) ∧
      (¬(Literal.can_cast k = true ∧ Tuple.can_cast k = true)) ∧
      (¬(Literal.can_cast k = true ∧ gleam.List.can_cast k = true)) ∧
      (¬(Tuple.can_cast k = true ∧ gleam.List.can_cast k = true)) ∧
      (¬(FnType.can_cast k = true ∧ VarType.can_cast k = true)) ∧
      (¬(FnType.can_cast k = true ∧ TupleType.can_cast k = true)) ∧
      (¬(FnType.can_cast k = true ∧ ConstructorType.can_cast k = true)) ∧
      (¬(VarType.can_cast k = true ∧ TupleType.can_cast k = true)) ∧
      (¬(VarType.can_cast k = true ∧ ConstructorType.can_cast k = true)) ∧
      (¬(TupleType.can_cast k = true ∧ ConstructorType.can_cast k = true)) := by
  intro k
  cases k <;> decide

end gleam

namespace gleam

/-- C4: for every wrapper type, re-casting a wrapper's underlying node
returns that same wrapper (cast then re-cast equals cast), and two
wrappers of the same type over equal untyped node handles are equal: for
a single-kind wrapper struct unconditionally, and for a sum-type wrapper
for any two cast-produced values. -/
theorem c4_cast_idempotent :
    (∀ n : SyntaxNode,
      ((gleam.List.cast n).bind (fun w => gleam.List.cast w.node) = gleam.List.cast n) ∧
      ((Literal.cast n).bind (fun w => Literal.cast w.node) = Literal.cast n) ∧
      ((Import.cast n).bind (fun w => Import.cast w.node) = Import.cast n) ∧
      ((ImportModule.cast n).bind (fun w => ImportModule.cast w.node) = ImportModule.cast n) ∧
      ((SourceFile.cast n).bind (fun w => SourceFile.cast w.node) = SourceFile.cast n) ∧
      ((ModuleName.cast n).bind (fun w => ModuleName.cast w.node) = ModuleName.cast n) ∧
      ((ModuleConstant.cast n).bind (fun w => ModuleConstant.cast w.node) = ModuleConstant.cast n) ∧
      ((Name.cast n).bind (fun w => Name.cast w.node) = Name.cast n) ∧
      ((Path.cast n).bind (fun w => Path.cast w.node) = Path.cast n) ∧
      ((UnqualifiedImport.cast n).bind (fun w => UnqualifiedImport.cast w.node) = UnqualifiedImport.cast n) ∧
      ((Param.cast n).bind (fun w => Param.cast w.node) = Param.cast n) ∧
      ((ParamList.cast n).bind (fun w => ParamList.cast w.node) = ParamList.cast n) ∧
      ((Target.cast n).bind (fun w => Target.cast w.node) = Target.cast n) ∧
      ((TargetGroup.cast n).bind (fun w => TargetGroup.cast w.node) = TargetGroup.cast n) ∧
      ((Tuple.cast n).bind (fun w => Tuple.cast w.node) = Tuple.cast n) ∧
      ((ConstructorType.cast n).bind (fun w => ConstructorType.cast w.node) = ConstructorType.cast n) ∧
      ((TupleType.cast n).bind (fun w => TupleType.cast w.node) = TupleType.cast n) ∧
      ((FnType.cast n).bind (fun w => FnType.cast w.node) = FnType.cast n) ∧
      ((VarType.cast n).bind (fun w => VarType.cast w.node) = VarType.cast n) ∧
      ((Statement.cast n).bind (fun s => Statement.cast (Statement.node s)) = Statement.cast n) ∧
      ((ConstantValue.cast n).bind (fun s => ConstantValue.cast (ConstantValue.node s)) = ConstantValue.cast n) ∧
      (( TypeAnnotation.cast n).bind (fun s => TypeAnnotation.cast ( TypeAnnotation.node s)) = TypeAnnotation.cast n)) ∧
    ((∀ w₁ w₂ : gleam.List, w₁.node = w₂.node ↔ w₁ = w₂) ∧
      (∀ w₁ w₂ : Literal, w₁.node = w₂.node ↔ w₁ = w₂) ∧
      (∀ w₁ w₂ : Import, w₁.node = w₂.node ↔ w₁ = w₂) ∧
      (∀ w₁ w₂ : ImportModule, w₁.node = w₂.node ↔ w₁ = w₂) ∧
      (∀ w₁ w₂ : SourceFile, w₁.node = w₂.node ↔ w₁ = w₂) ∧
      (∀ w₁ w₂ : ModuleName, w₁.node = w₂.node ↔ w₁ = w₂) ∧
      (∀ w₁ w₂ : ModuleConstant, w₁.node = w₂.node ↔ w₁ = w₂) ∧
      (∀ w₁ w₂ : Name, w₁.node = w₂.node ↔ w₁ = w₂) ∧
      (∀ w₁ w₂ : Path, w₁.node = w₂.node ↔ w₁ = w₂) ∧
      (∀ w₁ w₂ : UnqualifiedImport, w₁.node = w₂.node ↔ w₁ = w₂) ∧
      (∀ w₁ w₂ : Param, w₁.node = w₂.node ↔ w₁ = w₂) ∧
      (∀ w₁ w₂ : ParamList, w₁.node = w₂.node ↔ w₁ = w₂) ∧
      (∀ w₁ w₂ : Target, w₁.node = w₂.node ↔ w₁ = w₂) ∧
      (∀ w₁ w₂ : TargetGroup, w₁.node = w₂.node ↔ w₁ = w₂) ∧
      (∀ w₁ w₂ : Tuple, w₁.node = w₂.node ↔ w₁ = w₂) ∧
      (∀ w₁ w₂ : ConstructorType, w₁.node = w₂.node ↔ w₁ = w₂) ∧
      (∀ w₁ w₂ : TupleType, w₁.node = w₂.node ↔ w₁ = w₂) ∧
      (∀ w₁ w₂ : FnType, w₁.node = w₂.node ↔ w₁ = w₂) ∧
      (∀ w₁ w₂ : VarType, w₁.node = w₂.node ↔ w₁ = w₂)) ∧
    ((∀ n₁ n₂ s₁ s₂, Statement.cast n₁ = some s₁ → Statement.cast n₂ = some s₂ →
        Statement.node s₁ = Statement.node s₂ → s₁ = s₂) ∧
      (∀ n₁ n₂ s₁ s₂, ConstantValue.cast n₁ = some s₁ → ConstantValue.cast n₂ = some s₂ →
        ConstantValue.node s₁ = ConstantValue.node s₂ → s₁ = s₂) ∧
      (∀ n₁ n₂ s₁ s₂, TypeAnnotation.cast n₁ = some s₁ → TypeAnnotation.cast n₂ = some s₂ →
         TypeAnnotation.node s₁ = TypeAnnotation.node s₂ → s₁ = s₂)) := by
  refine ⟨?_, ?_, ?_, ?_, ?_⟩
  · intro n
    exact ⟨bind_recast _ _ (singleCast_node _ _ _ fun _ => rfl) n,
      bind_recast _ _ (singleCast_node _ _ _ fun _ => rfl) n,
      bind_recast _ _ (singleCast_node _ _ _ fun _ => rfl) n,
      bind_recast _ _ (singleCast_node _ _ _ fun _ => rfl) n,
      bind_recast _ _ (singleCast_node _ _ _ fun _ => rfl) n,
      bind_recast _ _ (singleCast_node _ _ _ fun _ => rfl) n,
      bind_recast _ _ (singleCast_node _ _ _ fun _ => rfl) n,
      bind_recast _ _ (singleCast_node _ _ _ fun _ => rfl) n,
      bind_recast _ _ (singleCast_node _ _ _ fun _ => rfl) n,
      bind_recast _ _ (singleCast_node _ _ _ fun _ => rfl) n,
      bind_recast _ _ (singleCast_node _ _ _ fun _ => rfl) n,
      bind_recast _ _ (singleCast_node _ _ _ fun _ => rfl) n,
      bind_recast _ _ (singleCast_node _ _ _ fun _ => rfl) n,
      bind_recast _ _ (singleCast_node _ _ _ fun _ => rfl) n,
      bind_recast _ _ (singleCast_node _ _ _ fun _ => rfl) n,
      bind_recast _ _ (singleCast_node _ _ _ fun _ => rfl) n,
      bind_recast _ _ (singleCast_node _ _ _ fun _ => rfl) n,
      bind_recast _ _ (singleCast_node _ _ _ fun _ => rfl) n,
      bind_recast _ _ (singleCast_node _ _ _ fun _ => rfl) n,
      bind_recast _ _ statement_cast_node n,
      bind_recast _ _ constantValue_cast_node n,
      bind_recast _ _ typeAnnotation_cast_node n⟩
  · exact ⟨fun w₁ w₂ => by cases w₁; cases w₂; simp,
      fun w₁ w₂ => by cases w₁; cases w₂; simp,
      fun w₁ w₂ => by cases w₁; cases w₂; simp,
      fun w₁ w₂ => by cases w₁; cases w₂; simp,
      fun w₁ w₂ => by cases w₁; cases w₂; simp,
      fun w₁ w₂ => by cases w₁; cases w₂; simp,
      fun w₁ w₂ => by cases w₁; cases w₂; simp,
      fun w₁ w₂ => by cases w₁; cases w₂; simp,
      fun w₁ w₂ => by cases w₁; cases w₂; simp,
      fun w₁ w₂ => by cases w₁; cases w₂; simp,
      fun w₁ w₂ => by cases w₁; cases w₂; simp,
      fun w₁ w₂ => by cases w₁; cases w₂; simp,
      fun w₁ w₂ => by cases w₁; cases w₂; simp,
      fun w₁ w₂ => by cases w₁; cases w₂; simp,
      fun w₁ w₂ => by cases w₁; cases w₂; simp,
      fun w₁ w₂ => by cases w₁; cases w₂; simp,
      fun w₁ w₂ => by cases w₁; cases w₂; simp,
      fun w₁ w₂ => by cases w₁; cases w₂; simp,
      fun w₁ w₂ => by cases w₁; cases w₂; simp⟩
  · intro n₁ n₂ s₁ s₂ h₁ h₂ hn
    have e₁ := statement_cast_node n₁ s₁ h₁
    have e₂ := statement_cast_node n₂ s₂ h₂
    rw [e₁, e₂] at hn
    subst hn
    rw [h₁] at h₂
    exact Option.some.inj h₂
  · intro n₁ n₂ s₁ s₂ h₁ h₂ hn
    have e₁ := constantValue_cast_node n₁ s₁ h₁
    have e₂ := constantValue_cast_node n₂ s₂ h₂
    rw [e₁, e₂] at hn
    subst hn
    rw [h₁] at h₂
    exact Option.some.inj h₂
  · intro n₁ n₂ s₁ s₂ h₁ h₂ hn
    have e₁ := typeAnnotation_cast_node n₁ s₁ h₁
    have e₂ := typeAnnotation_cast_node n₂ s₂ h₂
    rw [e₁, e₂] at hn
    subst hn
    rw [h₁] at h₂
    exact Option.some.inj h₂

/-- C6: each sum-type cast that matches directly on the node's kind tag is
equal to the reference procedure that tries each variant's single-kind
cast in declaration order and wraps the first success; and can_cast holds
exactly when some variant's single-kind can_cast holds. -/
theorem c6_sum_cast_refinement :
    (∀ n : SyntaxNode,
      Statement.cast n = Statement.castSpec n ∧
      ConstantValue.cast n = ConstantValue.castSpec n ∧
      TypeAnnotation.cast n = TypeAnnotation.castSpec n) ∧
    (∀ k : SyntaxKind,
      Statement.can_cast k = (ModuleConstant.can_cast k || Import.can_cast k) ∧
      ConstantValue.can_cast k =
        (Literal.can_cast k || Tuple.can_cast k || gleam.List.can_cast k) ∧
      TypeAnnotation.can_cast k =
        (FnType.can_cast k || VarType.can_cast k ||
         TupleType.can_cast k || ConstructorType.can_cast k)) := by
  constructor
  · intro n
    obtain ⟨k, cs⟩ := n
    refine ⟨?_, ?_, ?_⟩ <;> cases k <;> rfl
  · intro k
    refine ⟨?_, ?_, ?_⟩ <;> cases k <;> rfl

end gleam

namespace gleam

/-- C3: the nth-child-of-kind accessor rule (the children-then-nth arm of
ast_impl!) agrees, for every node, target cast and ordinal, with filtering
the node's direct children to the castable ones in document order and
indexing; it is absent exactly when fewer matching children exist than the
ordinal requires (non-matching children are skipped, not counted); and
UnqualifiedImport's as_name accessor is that rule at ordinal 1 for Name. -/
theorem c3_nth_child_ordinal :
    (∀ {α : Type} (cast : SyntaxNode → Option α) (n : SyntaxNode) (i : Nat),
      (astNthChild cast n i =
        (((childNodes n).filter (fun c => (cast c).isSome))[i]?).bind cast) ∧
      (astNthChild cast n i = none ↔
        ((childNodes n).filter (fun c => (cast c).isSome)).length ≤ i)) ∧
    (∀ w : UnqualifiedImport,
      UnqualifiedImport.as_name w =
        (((childNodes w.node).filter (fun c => (Name.cast c).isSome))[1]?).bind
          Name.cast) := by
  constructor
  · intro α cast n i
    have hbase : astNthChild cast n i =
        (((childNodes n).filter (fun c => (cast c).isSome))[i]?).bind cast :=
      getElem?_filterMap_eq cast (childNodes n) i
    refine ⟨hbase, ?_⟩
    have hlen : ((childNodes n).filterMap cast).length =
        ((childNodes n).filter (fun c => (cast c).isSome)).length :=
      length_filterMap_eq cast (childNodes n)
    show ((childNodes n).filterMap cast)[i]? = none ↔ _
    rw [List.getElem?_eq_none_iff, hlen]
  · intro w
    exact getElem?_filterMap_eq Name.cast (childNodes w.node) 1

/-- C7: every all-children-of-kind field accessor yields exactly one typed
wrapper per direct child whose kind is in the target's accepted set, in
document order and without recursing into grandchildren — its underlying
nodes are precisely the kind-filtered direct children — and it yields the
empty sequence (not absence) when no direct child matches. -/
theorem c7_children_of_kind :
    (∀ w : Tuple, (Tuple.elements w).map ConstantValue.node =
      (childNodes w.node).filter (fun c => ConstantValue.can_cast c.kind)) ∧
    (∀ w : SourceFile, (SourceFile.statements w).map TargetGroup.node =
      (childNodes w.node).filter (fun c => TargetGroup.can_cast c.kind)) ∧
    (∀ w : ImportModule, (ImportModule.unqualified w).map UnqualifiedImport.node =
      (childNodes w.node).filter (fun c => UnqualifiedImport.can_cast c.kind)) ∧
    (∀ w : ImportModule, (ImportModule.module_path w).map Path.node =
      (childNodes w.node).filter (fun c => Path.can_cast c.kind)) ∧
    (∀ w : ParamList, (ParamList.params w).map Param.node =
      (childNodes w.node).filter (fun c => Param.can_cast c.kind)) ∧
    (∀ w : gleam.List, (gleam.List.elements w).map ConstantValue.node =
      (childNodes w.node).filter (fun c => ConstantValue.can_cast c.kind)) ∧
    (∀ w : TargetGroup, (TargetGroup.statements w).map Statement.node =
      (childNodes w.node).filter (fun c => Statement.can_cast c.kind)) ∧
    (∀ w : TupleType, (TupleType.field_types w).map TypeAnnotation.node =
      (childNodes w.node).filter (fun c => TypeAnnotation.can_cast c.kind)) ∧
    (∀ w : Tuple, (∀ c ∈ childNodes w.node, ConstantValue.can_cast c.kind = false) →
      Tuple.elements w = []) ∧
    (∀ w : SourceFile, (∀ c ∈ childNodes w.node, TargetGroup.can_cast c.kind = false) →
      SourceFile.statements w = []) ∧
    (∀ w : ImportModule,
      (∀ c ∈ childNodes w.node, UnqualifiedImport.can_cast c.kind = false) →
      ImportModule.unqualified w = []) ∧
    (∀ w : ParamList, (∀ c ∈ childNodes w.node, Param.can_cast c.kind = false) →
      ParamList.params w = []) := by
  have hcv : ∀ l : NodeList, (l.filterMap ConstantValue.cast).map ConstantValue.node =
      l.filter (fun c => ConstantValue.can_cast c.kind) :=
    map_filterMap_of _ _ _ constantValue_cast_node constantValue_cast_isSome
  have hst : ∀ l : NodeList, (l.filterMap Statement.cast).map Statement.node =
      l.filter (fun c => Statement.can_cast c.kind) :=
    map_filterMap_of _ _ _ statement_cast_node statement_cast_isSome
  have hta : ∀ l : NodeList, (l.filterMap TypeAnnotation.cast).map TypeAnnotation.node =
      l.filter (fun c => TypeAnnotation.can_cast c.kind) :=
    map_filterMap_of _ _ _ typeAnnotation_cast_node typeAnnotation_cast_isSome
  have htg : ∀ l : NodeList, (l.filterMap TargetGroup.cast).map TargetGroup.node =
      l.filter (fun c => TargetGroup.can_cast c.kind) :=
    map_filterMap_of _ _ _ (singleCast_node _ _ _ fun _ => rfl)
      (fun n => singleCast_isSome _ _ _)
  have huq : ∀ l : NodeList,
      (l.filterMap UnqualifiedImport.cast).map UnqualifiedImport.node =
      l.filter (fun c => UnqualifiedImport.can_cast c.kind) :=
    map_filterMap_of _ _ _ (singleCast_node _ _ _ fun _ => rfl)
      (fun n => singleCast_isSome _ _ _)
  have hpa : ∀ l : NodeList, (l.filterMap Path.cast).map Path.node =
      l.filter (fun c => Path.can_cast c.kind) :=
    map_filterMap_of _ _ _ (singleCast_node _ _ _ fun _ => rfl)
      (fun n => singleCast_isSome _ _ _)
  have hpr : ∀ l : NodeList, (l.filterMap Param.cast).map Param.node =
      l.filter (fun c => Param.can_cast c.kind) :=
    map_filterMap_of _ _ _ (singleCast_node _ _ _ fun _ => rfl)
      (fun n => singleCast_isSome _ _ _)
  have hnil : ∀ {β : Type} (f : SyntaxNode → Option β) (g : β → SyntaxNode)
      (p : SyntaxNode → Bool) (l : NodeList),
      ((l.filterMap f).map g = l.filter p) → (∀ c ∈ l, p c = false) →
      l.filterMap f = [] := by
    intro β f g p l hmap hall
    have hfil : l.filter p = [] := by
      rw [List.filter_eq_nil_iff]
      intro a ha
      simp [hall a ha]
    rw [hfil] at hmap
    exact List.map_eq_nil_iff.mp hmap
  refine ⟨fun w => hcv _, fun w => htg _, fun w => huq _, fun w => hpa _,
    fun w => hpr _, fun w => hcv _, fun w => hst _, fun w => hta _,
    fun w h => hnil _ ConstantValue.node _ _ (hcv _) h,
    fun w h => hnil _ TargetGroup.node _ _ (htg _) h,
    fun w h => hnil _ UnqualifiedImport.node _ _ (huq _) h,
    fun w h => hnil _ Param.node _ _ (hpr _) h⟩

end gleam

namespace gleam

/-- C9: Literal::token returns the first token among the node's direct
children in document order regardless of its kind, and is absent exactly
when the node has no token child; Literal::kind maps that token's kind to
Int, Float or String for the corresponding literal token kinds and is
absent — never a default category — when there is no token or its kind is
none of these. -/
theorem c9_literal_token_kind :
    ∀ w : Literal,
      (Literal.token w = (childTokens w.node)[0]?) ∧
      (Literal.token w = none ↔ childTokens w.node = []) ∧
      (∀ t, Literal.token w = some t →
        (Literal.kind w = some LiteralKind.Int ↔ t.kind = SyntaxKind.INTEGER) ∧
        (Literal.kind w = some LiteralKind.Float ↔ t.kind = SyntaxKind.FLOAT) ∧
        (Literal.kind w = some LiteralKind.String ↔ t.kind = SyntaxKind.STRING) ∧
        (Literal.kind w = none ↔
          (t.kind ≠ SyntaxKind.INTEGER ∧ t.kind ≠ SyntaxKind.FLOAT ∧
           t.kind ≠ SyntaxKind.STRING))) ∧
      (Literal.token w = none → Literal.kind w = none) := by
  intro w
  have htok : Literal.token w = (childTokens w.node)[0]? :=
    findSome?_eq_getElem?_zero elemToken w.node.childElems
  refine ⟨htok, ?_, ?_, ?_⟩
  · rw [htok]
    cases childTokens w.node <;> simp
  · intro t ht
    unfold Literal.kind
    rw [ht]
    obtain ⟨tk, tx⟩ := t
    cases tk <;> simp
  · intro h
    unfold Literal.kind
    rw [h]

/-- C10: for every UnqualifiedImport node, name returns the first direct
NAME child and as_name the second (0-based ordinal 1); with exactly one
NAME child, name is present and as_name absent; and whenever both are
present they are children at distinct positions, name's strictly before
as_name's in document order. -/
theorem c10_unqualified_import_names :
    ∀ w : UnqualifiedImport,
      ((UnqualifiedImport.name w).map Name.node =
        ((childNodes w.node).filter (fun c => c.kind == SyntaxKind.NAME))[0]?) ∧
      ((UnqualifiedImport.as_name w).map Name.node =
        ((childNodes w.node).filter (fun c => c.kind == SyntaxKind.NAME))[1]?) ∧
      ((((childNodes w.node).filter (fun c => c.kind == SyntaxKind.NAME)).length = 1) →
        ((UnqualifiedImport.name w).isSome = true ∧ UnqualifiedImport.as_name w = none)) ∧
      (∀ a b, UnqualifiedImport.name w = some a → UnqualifiedImport.as_name w = some b →
        ∃ i j : Nat, i < j ∧ (childNodes w.node)[i]? = some a.node ∧
          (childNodes w.node)[j]? = some b.node) := by
  intro w
  have h1 := singleCast_node Name.KIND Name.mk Name.node (fun _ => rfl)
  have h2 : ∀ n : SyntaxNode, (Name.cast n).isSome = (n.kind == SyntaxKind.NAME) :=
    fun n => singleCast_isSome Name.KIND Name.mk n
  have hname : (UnqualifiedImport.name w).map Name.node =
      ((childNodes w.node).filter (fun c => c.kind == SyntaxKind.NAME))[0]? := by
    show (((childNodes w.node).findSome? Name.cast).map Name.node) = _
    rw [findSome?_eq_getElem?_zero]
    exact getElem?_filterMap_map Name.cast Name.node
      (fun k => k == SyntaxKind.NAME) h1 h2 (childNodes w.node) 0
  have hasname : (UnqualifiedImport.as_name w).map Name.node =
      ((childNodes w.node).filter (fun c => c.kind == SyntaxKind.NAME))[1]? :=
    getElem?_filterMap_map Name.cast Name.node
      (fun k => k == SyntaxKind.NAME) h1 h2 (childNodes w.node) 1
  refine ⟨hname, hasname, ?_, ?_⟩
  · intro hlen
    constructor
    · rcases hf : (childNodes w.node).filter (fun c => c.kind == SyntaxKind.NAME) with
        _ | ⟨x, xs⟩
      · rw [hf] at hlen
        cases hlen
      · rw [hf] at hname
        cases hn : UnqualifiedImport.name w with
        | none =>
          rw [hn] at hname
          simp at hname
        | some a => rfl
    · have hnone : ((childNodes w.node).filter
          (fun c => c.kind == SyntaxKind.NAME))[1]? = none := by
        rw [List.getElem?_eq_none_iff, hlen]
      rw [hnone] at hasname
      exact Option.map_eq_none'.mp hasname
  · intro a b ha hb
    have h0 : ((childNodes w.node).filter (fun c => c.kind == SyntaxKind.NAME))[0]? =
        some a.node := by
      rw [← hname, ha]
      rfl
    have h1' : ((childNodes w.node).filter (fun c => c.kind == SyntaxKind.NAME))[1]? =
        some b.node := by
      rw [← hasname, hb]
      rfl
    exact filter_zero_one _ (childNodes w.node) a.node b.node h0 h1'

end gleam

namespace gleam

/-- C5: for every source text the parser accepts — its contract being a root
node of the SOURCE_FILE kind and losslessness of the produced tree,
including for inputs with syntax errors — casting the root to the typed
SourceFile wrapper succeeds, and printing the wrapper's underlying node
reproduces the original input exactly. -/
theorem c5_text_roundtrip :
    ∀ parse : String → SyntaxNode, ParserContract parse →
      ∀ src : String, ∃ w : SourceFile, SourceFile.cast (parse src) = some w ∧
        nodeText w.node = src := by
  intro parse hp src
  obtain ⟨hk, ht⟩ := hp src
  refine ⟨⟨parse src⟩, ?_, ht⟩
  show singleCast SyntaxKind.SOURCE_FILE SourceFile.mk (parse src) = _
  unfold singleCast
  rw [hk]
  rfl

/-- C5 witness: the round-trip theorem applied to a concrete modelled parser
and a concrete source text. -/
theorem c5_text_roundtrip_witness :
    ∃ w : SourceFile, SourceFile.cast (parseModel srcEx) = some w ∧
      nodeText w.node = srcEx :=
  c5_text_roundtrip parseModel
    (fun src => ⟨rfl, by simp [parseModel, nodeText, elemsText, elemText]⟩) srcEx

/-- C8 counterexample: a legal untyped MODULE_CONSTANT node whose only child
is a node (not a token) carrying the pub-keyword kind.  The wrapper is
produced by cast, is_public answers true, yet the node has no direct token
child of the pub keyword kind, refuting the claimed equivalence. -/
theorem c8_is_public_counterexample :
    (ModuleConstant.cast mcCex = some ⟨mcCex⟩) ∧
    ¬((ModuleConstant.is_public ⟨mcCex⟩ = true) ↔
      ∃ t ∈ childTokens mcCex, t.kind = SyntaxKind.PUB_KW) := by
  refine ⟨rfl, ?_⟩
  intro h
  obtain ⟨t, ht, _⟩ := h.mp rfl
  simp [childTokens, mcCex, elemToken, SyntaxNode.childElems] at ht

/-- C8 (amended): is_public is true iff some direct child element — node or
token alike, since the code compares the kind of every element yielded by
children_with_tokens — carries the pub-keyword kind; on every node none of
whose node children carries that token kind (as in every parser-produced
tree) this coincides with the presence of a direct pub keyword token
child; and for the parsed public constant declaration it is true. -/
theorem c8_is_public_amended :
    (∀ w : ModuleConstant,
      ((ModuleConstant.is_public w = true) ↔
        ∃ e ∈ w.node.childElems, elemKind e = SyntaxKind.PUB_KW) ∧
      ((∀ c ∈ childNodes w.node, c.kind ≠ SyntaxKind.PUB_KW) →
        ((ModuleConstant.is_public w = true) ↔
          ∃ t ∈ childTokens w.node, t.kind = SyntaxKind.PUB_KW))) ∧
    (ModuleConstant.is_public ⟨mcPub⟩ = true) := by
  constructor
  · intro w
    have hiff : (ModuleConstant.is_public w = true) ↔
        ∃ e ∈ w.node.childElems, elemKind e = SyntaxKind.PUB_KW := by
      unfold ModuleConstant.is_public
      simp [List.find?_isSome]
    refine ⟨hiff, fun hn => hiff.trans ?_⟩
    constructor
    · rintro ⟨e, he, hk⟩
      cases e with
      | inl n =>
        exact absurd hk (hn n (List.mem_filterMap.mpr ⟨Sum.inl n, he, rfl⟩))
      | inr t =>
        exact ⟨t, List.mem_filterMap.mpr ⟨Sum.inr t, he, rfl⟩, hk⟩
    · rintro ⟨t, ht, hk⟩
      obtain ⟨e, he, hie⟩ := List.mem_filterMap.mp ht
      cases e with
      | inl n => cases hie
      | inr t' =>
        obtain rfl := Option.some.inj hie
        exact ⟨Sum.inr t', he, hk⟩
  · rfl

end gleam
